import Mathlib

/-!
Verification of the webhook ingestion pipeline of the mugglepay repository.

The development shallowly embeds the TypeScript sources:
  * `src/utils/signatureVerification.ts` (both historical versions: the bare
    one and the try/catch-wrapped one) — HMAC-SHA256 signature verification;
  * `src/services/tokenService.ts` — the legacy flat token-event service;
  * the raw-activity ("ADDRESS_ACTIVITY") version of the token service;
  * `src/controllers/webhookController.ts` — the signature-checking controller;
  * the in-memory transfer store (a JavaScript `Map` keyed by transaction hash).

JavaScript numbers are modelled as `Rat` (balance deltas are exact integer
lamport differences divided by the constant `LAMPORTS_PER_SOL`); JavaScript
`undefined` is modelled with `Option`; thrown exceptions are modelled with
`Except`.  HMAC-SHA256 itself (Node's `crypto` module) is implemented
executably over byte lists per FIPS 180-4 / RFC 2104.
-/

/-! ## Bytes, 32-bit words, SHA-256 -/

/-- Truncate a natural number to a 32-bit word. -/
def w32 (n : Nat) : Nat := n % 4294967296

/-- Right rotation of a 32-bit word by `n` bits. -/
def rotr32 (n x : Nat) : Nat := w32 ((x >>> n) ||| (x <<< (32 - n)))

/-- SHA-256 `Ch` function (the complement is an xor with the 32-bit mask). -/
def shaCh (e f g : Nat) : Nat :=
  Nat.xor (Nat.land e f) (Nat.land (Nat.xor e 4294967295) g)

/-- SHA-256 `Maj` function. -/
def shaMaj (a b c : Nat) : Nat :=
  Nat.xor (Nat.xor (Nat.land a b) (Nat.land a c)) (Nat.land b c)

/-- SHA-256 big Sigma0. -/
def bigSigma0 (x : Nat) : Nat := rotr32 2 x ^^^ rotr32 13 x ^^^ rotr32 22 x

/-- SHA-256 big Sigma1. -/
def bigSigma1 (x : Nat) : Nat := rotr32 6 x ^^^ rotr32 11 x ^^^ rotr32 25 x

/-- SHA-256 small sigma0. -/
def smallSigma0 (x : Nat) : Nat := rotr32 7 x ^^^ rotr32 18 x ^^^ (x >>> 3)

/-- SHA-256 small sigma1. -/
def smallSigma1 (x : Nat) : Nat := rotr32 17 x ^^^ rotr32 19 x ^^^ (x >>> 10)

/-- The 64 SHA-256 round constants of FIPS 180-4, in decimal. -/
def sha256K : List Nat :=
  [1116352408, 1899447441, 3049323471, 3921009573, 961987163,
   1508970993, 2453635748, 2870763221, 3624381080, 310598401,
   607225278, 1426881987, 1925078388, 2162078206, 2614888103,
   3248222580, 3835390401, 4022224774, 264347078, 604807628,
   770255983, 1249150122, 1555081692, 1996064986, 2554220882,
   2821834349, 2952996808, 3210313671, 3336571891, 3584528711,
   113926993, 338241895, 666307205, 773529912, 1294757372,
   1396182291, 1695183700, 1986661051, 2177026350, 2456956037,
   2730485921, 2820302411, 3259730800, 3345764771, 3516065817,
   3600352804, 4094571909, 275423344, 430227734, 506948616,
   659060556, 883997877, 958139571, 1322822218, 1537002063,
   1747873779, 1955562222, 2024104815, 2227730452, 2361852424,
   2428436474, 2756734187, 3204031479, 3329325298]

/-- SHA-256 working state: eight 32-bit words. -/
structure Sha256State where
  a : Nat
  b : Nat
  c : Nat
  d : Nat
  e : Nat
  f : Nat
  g : Nat
  h : Nat
deriving Repr, DecidableEq

/-- The SHA-256 initial hash value of FIPS 180-4, in decimal. -/
def sha256InitState : Sha256State :=
  ⟨1779033703, 3144134277, 1013904242, 2773480762,
   1359893119, 2600822924, 528734635, 1541459225⟩

/-- One SHA-256 compression round with round constant `k` and schedule word `w`. -/
def sha256Round (s : Sha256State) (k w : Nat) : Sha256State :=
  let t1 := w32 (s.h + bigSigma1 s.e + shaCh s.e s.f s.g + k + w)
  let t2 := w32 (bigSigma0 s.a + shaMaj s.a s.b s.c)
  ⟨w32 (t1 + t2), s.a, s.b, s.c, w32 (s.d + t1), s.e, s.f, s.g⟩

/-- Word-wise modular addition of two SHA-256 states. -/
def sha256Add (x y : Sha256State) : Sha256State :=
  ⟨w32 (x.a + y.a), w32 (x.b + y.b), w32 (x.c + y.c), w32 (x.d + y.d),
   w32 (x.e + y.e), w32 (x.f + y.f), w32 (x.g + y.g), w32 (x.h + y.h)⟩

/-- Group a byte list into big-endian 32-bit words (four bytes per word). -/
def bytesToWords32 : List Nat → List Nat
  | b0 :: b1 :: b2 :: b3 :: rest =>
      (b0 * 16777216 + b1 * 65536 + b2 * 256 + b3) :: bytesToWords32 rest
  | _ => []

/-- Extend sixteen schedule words to sixty-four. -/
def msgSchedule (ws16 : List Nat) : List Nat :=
  (List.range 48).foldl
    (fun ws _ =>
      let n := ws.length
      ws ++ [w32 (smallSigma1 (ws.getD (n - 2) 0) + ws.getD (n - 7) 0 +
                  smallSigma0 (ws.getD (n - 15) 0) + ws.getD (n - 16) 0)])
    ws16

/-- Compress one 64-byte block into the running hash state. -/
def sha256Compress (st : Sha256State) (block : List Nat) : Sha256State :=
  let ws := msgSchedule (bytesToWords32 block)
  sha256Add st ((List.zip sha256K ws).foldl (fun s kw => sha256Round s kw.1 kw.2) st)

/-- Big-endian 8-byte encoding of a natural number. -/
def toBytes8BE (n : Nat) : List Nat :=
  [n >>> 56 &&& 255, n >>> 48 &&& 255, n >>> 40 &&& 255, n >>> 32 &&& 255,
   n >>> 24 &&& 255, n >>> 16 &&& 255, n >>> 8 &&& 255, n &&& 255]

/-- SHA-256 message padding: append `0x80`, zeros, and the 64-bit bit length. -/
def sha256Pad (msg : List Nat) : List Nat :=
  let len := msg.length
  let z := (64 - (len + 9) % 64) % 64
  msg ++ [128] ++ List.replicate z 0 ++ toBytes8BE (len * 8)

/-- Split a byte list into 64-byte chunks, with structural fuel (one unit of
fuel per chunk; the byte length always suffices). -/
def chunks64Fuel : Nat → List Nat → List (List Nat)
  | 0, _ => []
  | _, [] => []
  | fuel + 1, x :: xs => (x :: xs).take 64 :: chunks64Fuel fuel ((x :: xs).drop 64)

/-- Split a byte list into 64-byte chunks. -/
def chunks64 (xs : List Nat) : List (List Nat) := chunks64Fuel xs.length xs

/-- Big-endian 4-byte encoding of a 32-bit word. -/
def word32ToBytesBE (w : Nat) : List Nat :=
  [w >>> 24 &&& 255, w >>> 16 &&& 255, w >>> 8 &&& 255, w &&& 255]

/-- Serialize a SHA-256 state to its 32-byte digest. -/
def Sha256State.digestBytes (s : Sha256State) : List Nat :=
  word32ToBytesBE s.a ++ word32ToBytesBE s.b ++ word32ToBytesBE s.c ++ word32ToBytesBE s.d ++
  word32ToBytesBE s.e ++ word32ToBytesBE s.f ++ word32ToBytesBE s.g ++ word32ToBytesBE s.h

/-- SHA-256 of a byte list. -/
def sha256 (msg : List Nat) : List Nat :=
  ((chunks64 (sha256Pad msg)).foldl sha256Compress sha256InitState).digestBytes

/-! ## HMAC-SHA256 and hexadecimal encoding -/

/-- HMAC-SHA256 (RFC 2104) over byte lists, block size 64. -/
def hmacSha256 (key msg : List Nat) : List Nat :=
  let k0 := if key.length > 64 then sha256 key else key
  let kPad := k0 ++ List.replicate (64 - k0.length) 0
  let ipadKey := kPad.map (fun b => b ^^^ 54)
  let opadKey := kPad.map (fun b => b ^^^ 92)
  sha256 (opadKey ++ sha256 (ipadKey ++ msg))

/-- The sixteen lowercase hexadecimal digit characters. -/
def hexChars : List Char := "0123456789abcdef".data

/-- Lowercase hexadecimal encoding of a byte list, two characters per byte. -/
def bytesToHex (bs : List Nat) : String :=
  String.mk (bs.flatMap (fun b => [hexChars.getD (b / 16 % 16) '0', hexChars.getD (b % 16) '0']))

/-- UTF-8 encoding of a Unicode code point. -/
def utf8EncodeCp (n : Nat) : List Nat :=
  if n < 128 then [n]
  else if n < 2048 then [192 + n / 64, 128 + n % 64]
  else if n < 65536 then [224 + n / 4096, 128 + n / 64 % 64, 128 + n % 64]
  else [240 + n / 262144, 128 + n / 4096 % 64, 128 + n / 64 % 64, 128 + n % 64]

/-- UTF-8 byte encoding of a string. -/
def utf8Bytes (s : String) : List Nat := s.data.flatMap (fun c => utf8EncodeCp c.toNat)

/-- Lowercase hexadecimal HMAC-SHA256 digest of a message string under a key
string, as produced by `crypto.createHmac('sha256', key).update(msg, 'utf8').digest('hex')`. -/
def hmacSha256Hex (key msg : String) : String :=
  bytesToHex (hmacSha256 (utf8Bytes key) (utf8Bytes msg))

/-! ## Signature verification (`src/utils/signatureVerification.ts`) -/

/-- Embedding of `verifyAlchemySignature` (the bare version without try/catch):
compute the HMAC-SHA256 hex digest of the raw body under the signing key and
compare it for string equality with the claimed signature. -/
def verifyAlchemySignature (rawBody signature signingKey : String) : Bool :=
  signature == hmacSha256Hex signingKey rawBody

/-- Errors thrown inside the verification body by Node's crypto layer; an
absent (undefined) signing key makes `crypto.createHmac` throw. -/
inductive CryptoError
  | invalidKey
deriving Repr, DecidableEq

/-- The fallible digest computation: `crypto.createHmac('sha256', signingKey)`
throws when the signing key is undefined, otherwise yields the lowercase hex
HMAC-SHA256 digest of the raw body. -/
def hmacDigestE (signingKey : Option String) (rawBody : String) : Except CryptoError String :=
  match signingKey with
  | none => .error .invalidKey
  | some k => .ok (hmacSha256Hex k rawBody)

/-- Embedding of the try/catch-wrapped `verifyAlchemySignature` variant: any
internal error is caught and mapped to `false` (not authenticated). -/
def verifyAlchemySignatureSafe (rawBody signature : String) (signingKey : Option String) : Bool :=
  match hmacDigestE signingKey rawBody with
  | .ok digest => signature == digest
  | .error _ => false

/-! ## The transfer record and the hash-keyed store -/

/-- Embedding of the `TokenTransfer` interface.  `amount` is the JavaScript
number modelled as a rational; `fromAddr` models the `from` field, which at
runtime can be `undefined` in the raw-activity path (hence `Option`). -/
structure TokenTransfer where
  amount : Rat
  tokenAddress : String
  fromAddr : Option String
  toAddr : String
  timestamp : Int
  transactionHash : String
deriving Repr, DecidableEq

/-- The in-memory store `Map<string, TokenTransfer>`, as an association list
in insertion order. -/
abbrev TransferStore := List (String × TokenTransfer)

/-- JavaScript `Map.set`: update the value at the first occurrence of the key
in place, or append a fresh entry. -/
def mapSet : TransferStore → String → TokenTransfer → TransferStore
  | [], k, v => [(k, v)]
  | (k', v') :: rest, k, v =>
      if k' == k then (k, v) :: rest else (k', v') :: mapSet rest k v

/-- JavaScript `Map.get`: the value at the key, or `none` (undefined). -/
def mapGet : TransferStore → String → Option TokenTransfer
  | [], _ => none
  | (k', v') :: rest, k => if k' == k then some v' else mapGet rest k

/-- Embedding of `getTransferByHash`: a plain lookup in the store (the
`typeof txHash !== 'string'` guard cannot fire for a string argument). -/
def getTransferByHash (store : TransferStore) (txHash : String) : Option TokenTransfer :=
  mapGet store txHash

/-! ## JSON values and the legacy token-event service (`tokenService.ts`) -/

/-- A decoded JSON/JavaScript value as seen by the payload validators. -/
inductive JsVal
  | null
  | bool (b : Bool)
  | num (q : Rat)
  | str (s : String)
  | arr (xs : List JsVal)
  | obj (fields : List (String × JsVal))
deriving Repr

/-- Property access `v[k]`: `none` models JavaScript `undefined`. -/
def getField : JsVal → String → Option JsVal
  | .obj fields, k => (fields.find? (fun p => p.1 == k)).map (fun p => p.2)
  | _, _ => none

/-- The JavaScript `in` operator restricted to our model: own-property
presence on objects. -/
def hasField : JsVal → String → Bool
  | .obj fields, k => fields.any (fun p => p.1 == k)
  | _, _ => false

/-- Truthy object check: `payload && typeof payload === 'object'` holds for
objects and arrays (and for nothing else in the decoded-JSON fragment). -/
def isObjectLike : JsVal → Bool
  | .obj _ => true
  | .arr _ => true
  | _ => false

/-- JavaScript `String.prototype.toLowerCase` restricted to the ASCII range
(every address compared in this code is base-58 ASCII). -/
def lowerAscii (s : String) : String := String.mk (s.data.map Char.toLower)

/-- A character allowed by the base-58 address pattern `[1-9A-HJ-NP-Za-km-z]`. -/
def base58Char (c : Char) : Bool :=
  (('1' ≤ c && c ≤ '9') || ('A' ≤ c && c ≤ 'H') || ('J' ≤ c && c ≤ 'N') ||
   ('P' ≤ c && c ≤ 'Z') || ('a' ≤ c && c ≤ 'k') || ('m' ≤ c && c ≤ 'z'))

/-- The address format test `/^[1-9A-HJ-NP-Za-km-z]{32,44}$/`. -/
def base58Ok (s : String) : Bool :=
  decide (32 ≤ s.length) && decide (s.length ≤ 44) && s.data.all base58Char

/-- The amount format test, a matcher for `/^\d*\.?\d*$/`: a (possibly empty)
digit run, an optional single dot, and a (possibly empty) digit run. -/
def amountFormatOk (s : String) : Bool :=
  match s.data.drop (s.data.takeWhile Char.isDigit).length with
  | [] => true
  | c :: r => c == '.' && r.all Char.isDigit

/-- JavaScript `parseFloat` on the decimal fragment relevant here: consume a
leading digit run, an optional dot and a second digit run; `none` models `NaN`
(no digit consumed).  Exponents and signs never pass the amount format test
upstream and are not modelled. -/
def parseFloatJs (s : String) : Option Rat :=
  let cs := s.data
  let intPart := cs.takeWhile Char.isDigit
  let rest := cs.drop intPart.length
  let fracPart := match rest with
    | '.' :: r => r.takeWhile Char.isDigit
    | _ => []
  if intPart.isEmpty && fracPart.isEmpty then none
  else
    let iv : Nat := intPart.foldl (fun acc c => acc * 10 + (c.toNat - 48)) 0
    let fv : Nat := fracPart.foldl (fun acc c => acc * 10 + (c.toNat - 48)) 0
    some ((iv : Rat) + (fv : Rat) / ((10 : Rat) ^ fracPart.length))

namespace Legacy

/-- The validation errors thrown by the legacy `validatePayload`, one per
`throw new Error(...)` site, in source order. -/
inductive VErr
  | notObject
  | missingEvent
  | missingFields (fields : List String)
  | tokenAddressNotString
  | toNotString
  | fromNotString
  | amountNotString
  | hashNotString
  | timestampNotString
  | invalidTokenAddressFormat
  | invalidRecipientFormat
  | invalidSenderFormat
  | invalidAmountFormat
  | invalidTimestampFormat
deriving Repr, DecidableEq

/-- The six required event fields, in the order the source lists them. -/
def requiredFields : List String :=
  ["tokenAddress", "to", "from", "amount", "hash", "timestamp"]

/-- Read a field of the event object expecting a string value, with the error
thrown when the value is absent or not a string. -/
def requireString (ev : JsVal) (field : String) (e : VErr) : Except VErr String :=
  match getField ev field with
  | some (.str s) => .ok s
  | _ => .error e

/-- Embedding of the legacy `validatePayload`.  `parseDate` stands for
JavaScript `new Date(s).getTime()`, with `none` for `NaN`. -/
def validatePayload (parseDate : String → Option Int) (payload : JsVal) : Except VErr Unit :=
  if ¬ isObjectLike payload then .error .notObject
  else
    match getField payload "event" with
    | none => .error .missingEvent
    | some ev =>
      if ¬ isObjectLike ev then .error .missingEvent
      else
        let missing := requiredFields.filter (fun f => ¬ hasField ev f)
        if ¬ missing.isEmpty then .error (.missingFields missing)
        else
          match requireString ev "tokenAddress" .tokenAddressNotString with
          | .error e => .error e
          | .ok tokenAddress =>
          match requireString ev "to" .toNotString with
          | .error e => .error e
          | .ok toA =>
          match requireString ev "from" .fromNotString with
          | .error e => .error e
          | .ok fromA =>
          match requireString ev "amount" .amountNotString with
          | .error e => .error e
          | .ok amount =>
          match requireString ev "hash" .hashNotString with
          | .error e => .error e
          | .ok _hash =>
          match requireString ev "timestamp" .timestampNotString with
          | .error e => .error e
          | .ok timestamp =>
          if ¬ base58Ok tokenAddress then .error .invalidTokenAddressFormat
          else if ¬ base58Ok toA then .error .invalidRecipientFormat
          else if ¬ base58Ok fromA then .error .invalidSenderFormat
          else if ¬ amountFormatOk amount then .error .invalidAmountFormat
          else
            match parseDate timestamp with
            | none => .error .invalidTimestampFormat
            | some _ => .ok ()

/-- Read `payload.event.f` as the string it was validated to be (the default
is unreachable after successful validation). -/
def eventField (payload : JsVal) (f : String) : String :=
  match getField payload "event" with
  | some ev =>
      match getField ev f with
      | some (.str s) => s
      | _ => ""
  | none => ""

/-- Outcomes of the legacy `handleWebhook` that propagate as thrown errors:
a validation failure, or one of the two post-validation parse failures (which
the source logs and then re-throws). -/
inductive HErr
  | validation (e : VErr)
  | parseAmount
  | parseTimestamp
deriving Repr, DecidableEq

/-- Embedding of the legacy `handleWebhook`.  `cfgToken` is
`config.usdcTokenAddress.toBase58()` and `cfgAddr` is `config.solanaAddress`.
A filtered-out event returns the store unchanged; a stored event upserts the
new record under its transaction hash; parse failures abort the notification
(the inner catch logs and re-throws). -/
def handleWebhook (parseDate : String → Option Int) (cfgToken cfgAddr : String)
    (payload : JsVal) (store : TransferStore) : Except HErr TransferStore :=
  match validatePayload parseDate payload with
  | .error e => .error (.validation e)
  | .ok _ =>
    let tokenAddress := eventField payload "tokenAddress"
    if lowerAscii tokenAddress != lowerAscii cfgToken then .ok store
    else
      let toA := eventField payload "to"
      if lowerAscii toA != lowerAscii cfgAddr then .ok store
      else
        match parseFloatJs (eventField payload "amount"),
              parseDate (eventField payload "timestamp") with
        | none, _ => .error .parseAmount
        | some _, none => .error .parseTimestamp
        | some am, some t =>
            let hash := eventField payload "hash"
            .ok (mapSet store hash
              { amount := am, tokenAddress := tokenAddress,
                fromAddr := some (eventField payload "from"), toAddr := toA,
                timestamp := t, transactionHash := hash })

end Legacy

/-! ## The webhook controller (`webhookController.ts`) -/

/-- An HTTP header value: a single string or a repeated (array) header. -/
inductive HeaderVal
  | str (s : String)
  | strs (ss : List String)
deriving Repr, DecidableEq

/-- An inbound webhook request as the controller sees it: the
`x-alchemy-signature` header, the preserved raw body, and the parsed JSON
body. -/
structure WebhookRequest where
  signatureHeader : Option HeaderVal
  rawBody : Option String
  body : JsVal

/-- The caller-visible outcomes of `POST /webhook`. -/
inductive HttpOutcome
  | accepted
  | unauthorizedMissing
  | unauthorizedInvalid
  | internalError
deriving Repr, DecidableEq

/-- An outcome with HTTP status 401. -/
def HttpOutcome.isUnauthorized : HttpOutcome → Bool
  | .unauthorizedMissing => true
  | .unauthorizedInvalid => true
  | _ => false

/-- Embedding of `webhookController.handleWebhook` composed with the legacy
token service: reject a missing, empty or non-string signature header; fail
internally when the raw body is unavailable or the signing key is undefined
(`crypto.createHmac` throws into the outer catch); reject a signature that
does not verify; otherwise run the service, mapping a thrown service error to
an internal error and success to acceptance. -/
def webhookPipeline (parseDate : String → Option Int) (signingKey : Option String)
    (cfgToken cfgAddr : String) (req : WebhookRequest) (store : TransferStore) :
    HttpOutcome × TransferStore :=
  match req.signatureHeader with
  | none => (.unauthorizedMissing, store)
  | some (.strs _) => (.unauthorizedMissing, store)
  | some (.str s) =>
    if s == "" then (.unauthorizedMissing, store)
    else
      match req.rawBody with
      | none => (.internalError, store)
      | some raw =>
        match signingKey with
        | none => (.internalError, store)
        | some k =>
          if verifyAlchemySignature raw s k then
            match Legacy.handleWebhook parseDate cfgToken cfgAddr req.body store with
            | .ok st => (.accepted, st)
            | .error _ => (.internalError, store)
          else (.unauthorizedInvalid, store)

/-! ## The raw-activity ("ADDRESS_ACTIVITY") token service -/

namespace RawActivity

/-- A transaction instruction: the account indexes it references (the unused
`data` and `program_id_index` fields are omitted). -/
structure Instruction where
  accounts : List Nat
deriving Repr, DecidableEq

/-- A transaction message: the account-keys list and the instruction list. -/
structure TxMessage where
  account_keys : List String
  instructions : List Instruction
deriving Repr, DecidableEq

/-- A transaction detail wrapper carrying a message list. -/
structure TxDetail where
  message : List TxMessage
deriving Repr, DecidableEq

/-- Transaction metadata: the fee and the pre/post native-balance lists, in
lamports. -/
structure TxMeta where
  fee : Int
  pre_balances : List Int
  post_balances : List Int
deriving Repr, DecidableEq

/-- One transaction item of the raw-activity notification. -/
structure TxItem where
  signature : String
  transaction : List TxDetail
  meta : List TxMeta
deriving Repr, DecidableEq

/-- The raw-activity event wrapper; `transaction` can be absent at runtime. -/
structure RawEvent where
  transaction : Option (List TxItem)
deriving Repr, DecidableEq

/-- The raw-activity notification: the webhook type discriminator and the
event, each possibly absent. -/
structure RawPayload where
  type : Option String
  event : Option RawEvent
deriving Repr, DecidableEq

/-- The validation errors thrown by the raw-activity `validatePayload`, one
per `throw new Error(...)` site that is reachable in the typed model. -/
inductive VErr
  | missingType
  | unsupportedType (t : String)
  | missingTransactionData
  | invalidTransactionStructure
  | missingMeta
deriving Repr, DecidableEq

/-- Lamports per SOL, the native-asset unit-conversion constant. -/
def LAMPORTS_PER_SOL : Int := 1000000000

/-- Embedding of `isMonitoredAddress`: case-insensitive comparison against the
configured address. -/
def isMonitoredAddress (cfgAddr address : String) : Bool :=
  lowerAscii address == lowerAscii cfgAddr

/-- `Array.prototype.findIndex` over the account keys with the
case-insensitive monitored-address test; `none` models `-1`. -/
def findMonitoredIndex (cfgAddr : String) : List String → Option Nat
  | [] => none
  | a :: rest =>
      if isMonitoredAddress cfgAddr a then some 0
      else (findMonitoredIndex cfgAddr rest).map (fun i => i + 1)

/-- Embedding of the raw-activity `validatePayload`.  It inspects only the
first transaction item: the presence checks on `account_keys`,
`instructions` and `Array.isArray` cannot fail in the typed model and are
noted as comments. -/
def validatePayload (payload : RawPayload) : Except VErr Unit :=
  match payload.type with
  | none => .error .missingType
  | some t =>
    if t == "" then .error .missingType
    else if t != "ADDRESS_ACTIVITY" then .error (.unsupportedType t)
    else
      match payload.event.bind (fun ev => ev.transaction) |>.bind List.head? with
      | none => .error .missingTransactionData
      | some t0 =>
        match t0.transaction.head?.bind (fun d => d.message.head?) with
        | none => .error .invalidTransactionStructure
        | some _msg =>
          -- account_keys / instructions are arrays by construction here
          match t0.meta.head? with
          | none => .error .missingMeta
          | some _ => .ok ()

/-- A thrown JavaScript error inside `processTransaction` (a `TypeError` from
a property access on `undefined`). -/
inductive JsError
  | typeError
deriving Repr, DecidableEq

/-- Embedding of `processTransaction`.  `now` stands for `Date.now()`.

Tracing the source: `transaction.transaction[0].message[0]` throws when the
detail list is empty; `message.account_keys` throws when the message list is
empty; a missing monitored address returns silently; `meta.pre_balances`
throws when the meta list is empty; an out-of-range balance index yields
`undefined`, making the delta `NaN` (modelled `none`), which fails the
positivity test; with a positive delta, `instructions[0].accounts` throws
when the instruction list is empty, while an empty per-instruction account
list merely yields `accounts[undefined] = undefined` as the sender; finally
the record is stored under the item's signature. -/
def processTransaction (cfgAddr : String) (now : Int) (tx : TxItem)
    (store : TransferStore) : Except JsError TransferStore :=
  match tx.transaction.head? with
  | none => .error .typeError
  | some detail =>
    match detail.message.head? with
    | none => .error .typeError
    | some message =>
      let accounts := message.account_keys
      let instructions := message.instructions
      match findMonitoredIndex cfgAddr accounts with
      | none => .ok store
      | some idx =>
        match tx.meta.head? with
        | none => .error .typeError
        | some meta =>
          let balanceChange : Option Rat :=
            match meta.pre_balances.get? idx, meta.post_balances.get? idx with
            | some p, some q => some (Rat.divInt (q - p) LAMPORTS_PER_SOL)
            | _, _ => none
          match balanceChange with
          | none => .ok store
          | some bc =>
            if bc > 0 then
              match instructions.head? with
              | none => .error .typeError
              | some ins0 =>
                let sender : Option String :=
                  ins0.accounts.head?.bind (fun i => accounts.get? i)
                let transfer : TokenTransfer :=
                  { amount := bc, tokenAddress := "SOL", fromAddr := sender,
                    toAddr := accounts.getD idx "", timestamp := now,
                    transactionHash := tx.signature }
                .ok (mapSet store transfer.transactionHash transfer)
            else .ok store

/-- The per-item loop body of the raw-activity `handleWebhook`: each item is
processed under a try/catch that logs and continues on failure. -/
def processItems (cfgAddr : String) (now : Int) (store : TransferStore) :
    List TxItem → TransferStore
  | [] => store
  | tx :: rest =>
      match processTransaction cfgAddr now tx store with
      | .ok st => processItems cfgAddr now st rest
      | .error _ => processItems cfgAddr now store rest

/-- Embedding of the raw-activity `handleWebhook`: validate the payload, then
fold the per-item processing (with per-item error isolation) over the
notification's transaction list. -/
def handleWebhook (cfgAddr : String) (now : Int) (payload : RawPayload)
    (store : TransferStore) : Except VErr TransferStore :=
  match validatePayload payload with
  | .error e => .error e
  | .ok _ =>
    let items := (payload.event.bind (fun ev => ev.transaction)).getD []
    .ok (processItems cfgAddr now store items)

end RawActivity

/-! ## Spec-side characterizations and audit predicates -/

/-- The spec's "plain decimal numeral — digits with an optional single decimal
point": every character is a digit or a dot, and at most one dot occurs. -/
def IsPlainDecimal (s : String) : Prop :=
  (∀ c ∈ s.data, c.isDigit = true ∨ c = '.') ∧ s.data.count '.' ≤ 1

instance (s : String) : Decidable (IsPlainDecimal s) := by
  unfold IsPlainDecimal; infer_instance

/-- Key-record coherence: every record the store yields is keyed by its own
transaction hash. -/
def WellKeyed (store : TransferStore) : Prop :=
  ∀ k r, mapGet store k = some r → r.transactionHash = k

/-! ## Concrete fixtures for witnesses and counterexamples -/

/-- A 44-character base-58 token mint used as the configured asset. -/
def usdcMint : String := "EPjFWdd5AufqSSqeM2qN1xzybapC8G4wEGGkZwyTDt1v"

/-- A 44-character base-58 account used as the configured monitored address. -/
def monitoredAddr : String := "4Nd1mBQtrMJVYVfKf2PJy9NZUZdTAsp7D4xWLs4gDB4T"

/-- A 32-character base-58 account used as a sender. -/
def senderAddr : String := "11111111111111111111111111111111"

/-- A concrete date parser fixture: one recognized timestamp string. -/
def parseDateFix : String → Option Int :=
  fun s => if s == "2024-01-01" then some 1704067200000 else none

/-- Build a legacy-shape payload with the six event fields. -/
def mkLegacyPayload (tok toA fromA amount hash ts : String) : JsVal :=
  .obj [("event", .obj
    [("tokenAddress", .str tok), ("to", .str toA), ("from", .str fromA),
     ("amount", .str amount), ("hash", .str hash), ("timestamp", .str ts)])]

/-- A legacy payload matching the configured asset and address. -/
def scenarioAPayload : JsVal :=
  mkLegacyPayload usdcMint monitoredAddr senderAddr "12.5" "abc123" "2024-01-01"

/-- A legacy payload whose amount `"."` passes the format test but parses to
`NaN`. -/
def dotAmountPayload : JsVal :=
  mkLegacyPayload usdcMint monitoredAddr senderAddr "." "h1" "2024-01-01"

/-- The store produced by ingesting `scenarioAPayload` into an empty store. -/
def storeAfterA : TransferStore :=
  match Legacy.handleWebhook parseDateFix usdcMint monitoredAddr scenarioAPayload [] with
  | .ok st => st
  | .error _ => []

/-- A raw-activity item with a positive delta for the monitored address but an
empty instruction list. -/
def txEmptyInstructions : RawActivity.TxItem :=
  { signature := "sig1",
    transaction := [{ message := [{ account_keys := [senderAddr, monitoredAddr],
                                    instructions := [] }] }],
    meta := [{ fee := 5000, pre_balances := [10, 1000000000],
               post_balances := [5, 1500000000] }] }

/-- A well-formed raw-activity item with a positive delta of one SOL for the
monitored address. -/
def txValid : RawActivity.TxItem :=
  { signature := "sig2",
    transaction := [{ message := [{ account_keys := [senderAddr, monitoredAddr],
                                    instructions := [{ accounts := [0, 1] }] }] }],
    meta := [{ fee := 5000, pre_balances := [2000000000, 1000000000],
               post_balances := [1000000000, 2000000000] }] }

/-- A raw-activity item with a positive delta whose first instruction has an
empty account list. -/
def txEmptyAccounts : RawActivity.TxItem :=
  { signature := "sig3",
    transaction := [{ message := [{ account_keys := [senderAddr, monitoredAddr],
                                    instructions := [{ accounts := [] }] }] }],
    meta := [{ fee := 5000, pre_balances := [0, 1000000000],
               post_balances := [0, 1500000000] }] }

/-- The record extracted from `txValid`. -/
def recValid : TokenTransfer :=
  { amount := 1, tokenAddress := "SOL", fromAddr := some senderAddr,
    toAddr := monitoredAddr, timestamp := 99, transactionHash := "sig2" }

/-- The record extracted from `txEmptyAccounts`: half a SOL, with an undefined
sender. -/
def recNoSender : TokenTransfer :=
  { amount := Rat.divInt 1 2, tokenAddress := "SOL", fromAddr := none,
    toAddr := monitoredAddr, timestamp := 99, transactionHash := "sig3" }

/-- The scenario-F event: a malformed first item and a valid second item. -/
def evScenarioF : RawActivity.RawEvent :=
  { transaction := some [txEmptyInstructions, txValid] }

/-- The scenario-F notification. -/
def payloadScenarioF : RawActivity.RawPayload :=
  { type := some "ADDRESS_ACTIVITY", event := some evScenarioF }

/-- Two distinct records sharing the transaction hash. -/
def rec1C4 : TokenTransfer :=
  { amount := 1, tokenAddress := "SOL", fromAddr := some senderAddr,
    toAddr := monitoredAddr, timestamp := 1, transactionHash := "h1" }

/-- Two distinct records sharing the transaction hash (second version). -/
def rec2C4 : TokenTransfer :=
  { amount := 2, tokenAddress := "SOL", fromAddr := some senderAddr,
    toAddr := monitoredAddr, timestamp := 2, transactionHash := "h1" }

/-! ## Store lemmas -/

theorem mapGet_mapSet_self (s : TransferStore) (k : String) (v : TokenTransfer) :
    mapGet (mapSet s k v) k = some v := by
  induction s with
  | nil => simp [mapSet, mapGet]
  | cons hd tl ih =>
      obtain ⟨k1, v1⟩ := hd
      by_cases h : k1 = k
      · simp [mapSet, mapGet, h]
      · simp [mapSet, mapGet, h, ih]

theorem mapGet_mapSet_ne (s : TransferStore) (k k2 : String) (v : TokenTransfer)
    (h : k2 ≠ k) : mapGet (mapSet s k v) k2 = mapGet s k2 := by
  induction s with
  | nil => simp [mapSet, mapGet, Ne.symm h]
  | cons hd tl ih =>
      obtain ⟨k1, v1⟩ := hd
      by_cases h1 : k1 = k
      · subst h1
        simp [mapSet, mapGet, Ne.symm h]
      · by_cases h2 : k1 = k2 <;> simp [mapSet, mapGet, h1, h2, h, ih]

theorem mapSet_mapSet_same (s : TransferStore) (k : String) (v1 v2 : TokenTransfer) :
    mapSet (mapSet s k v1) k v2 = mapSet s k v2 := by
  induction s with
  | nil => simp [mapSet]
  | cons hd tl ih =>
      obtain ⟨k1, w⟩ := hd
      by_cases h : k1 = k
      · simp [mapSet, h]
      · simp [mapSet, h, ih]

theorem wellKeyed_mapSet {s : TransferStore} (hw : WellKeyed s) (k0 : String)
    (v : TokenTransfer) (hk : v.transactionHash = k0) : WellKeyed (mapSet s k0 v) := by
  intro k r hget
  by_cases h : k = k0
  · subst h
    rw [mapGet_mapSet_self] at hget
    cases hget
    exact hk
  · rw [mapGet_mapSet_ne _ _ _ _ h] at hget
    exact hw k r hget

/-! ## Digest shape lemmas -/

theorem length_digestBytes (s : Sha256State) : s.digestBytes.length = 32 := rfl

theorem length_sha256 (msg : List Nat) : (sha256 msg).length = 32 := by
  unfold sha256
  exact length_digestBytes _

theorem length_hmacSha256 (key msg : List Nat) : (hmacSha256 key msg).length = 32 := by
  unfold hmacSha256
  exact length_sha256 _

theorem length_bytesToHex (bs : List Nat) : (bytesToHex bs).length = 2 * bs.length := by
  show (bs.flatMap _).length = 2 * bs.length
  induction bs with
  | nil => rfl
  | cons b t ih =>
      rw [List.flatMap_cons, List.length_append, ih]
      simp only [List.length_cons, List.length_nil]
      omega

theorem length_hmacSha256Hex (key msg : String) : (hmacSha256Hex key msg).length = 64 := by
  unfold hmacSha256Hex
  rw [length_bytesToHex, length_hmacSha256]

theorem getD_mem_hexChars (n : Nat) : hexChars.getD n '0' ∈ hexChars := by
  rcases Nat.lt_or_ge n hexChars.length with h | h
  · rw [List.getD_eq_getElem _ _ h]
    exact List.getElem_mem h
  · rw [List.getD_eq_default _ _ h]
    simp [hexChars]

theorem mem_hexChars_of_mem_bytesToHex (bs : List Nat) (c : Char)
    (h : c ∈ (bytesToHex bs).data) : c ∈ hexChars := by
  unfold bytesToHex at h
  rw [List.mem_flatMap] at h
  obtain ⟨b, _, hc⟩ := h
  simp only [List.mem_cons, List.not_mem_nil, or_false] at hc
  rcases hc with rfl | rfl <;> exact getD_mem_hexChars _

theorem hmacSha256Hex_ne_of_length (key msg s : String) (h : s.length ≠ 64) :
    s ≠ hmacSha256Hex key msg := by
  intro he
  rw [he, length_hmacSha256Hex] at h
  exact h rfl

theorem verify_false_of_length_ne (rawBody s signingKey : String) (h : s.length ≠ 64) :
    verifyAlchemySignature rawBody s signingKey = false := by
  unfold verifyAlchemySignature
  rw [beq_eq_false_iff_ne]
  exact hmacSha256Hex_ne_of_length _ _ _ h

theorem verify_roundtrip (rawBody signingKey : String) :
    verifyAlchemySignature rawBody (hmacSha256Hex signingKey rawBody) signingKey = true := by
  simp [verifyAlchemySignature]

/-! ## Amount-format lemmas -/

theorem drop_length_takeWhile (p : Char → Bool) (l : List Char) :
    l.drop (l.takeWhile p).length = l.dropWhile p := by
  induction l with
  | nil => rfl
  | cons a t ih =>
      by_cases h : p a
      · simp [List.takeWhile_cons, List.dropWhile_cons, h, ih]
      · simp [List.takeWhile_cons, List.dropWhile_cons, h]

theorem not_of_dropWhile_cons (p : Char → Bool) (l : List Char) (c : Char) (r : List Char)
    (h : l.dropWhile p = c :: r) : p c = false := by
  induction l with
  | nil => simp [List.dropWhile] at h
  | cons a t ih =>
      rw [List.dropWhile_cons] at h
      by_cases hp : p a
      · rw [if_pos hp] at h
        exact ih h
      · rw [if_neg hp] at h
        cases h
        exact Bool.eq_false_iff.mpr hp

theorem amountFormatOk_iff (s : String) : amountFormatOk s = true ↔ IsPlainDecimal s := by
  unfold amountFormatOk IsPlainDecimal
  rw [drop_length_takeWhile]
  have hsplit : s.data.takeWhile Char.isDigit ++ s.data.dropWhile Char.isDigit = s.data :=
    List.takeWhile_append_dropWhile _ _
  have htake : ∀ c ∈ s.data.takeWhile Char.isDigit, c.isDigit = true := by
    intro c hc
    exact List.mem_takeWhile_imp hc
  cases hrest : s.data.dropWhile Char.isDigit with
  | nil =>
      simp only [true_iff]
      rw [hrest, List.append_nil] at hsplit
      constructor
      · intro c hc
        rw [← hsplit] at hc
        exact Or.inl (htake c hc)
      · have : s.data.count '.' = 0 := by
          rw [List.count_eq_zero]
          intro hmem
          rw [← hsplit] at hmem
          have := htake _ hmem
          simp at this
        omega
  | cons c r =>
      have hc : Char.isDigit c = false := not_of_dropWhile_cons _ _ _ _ hrest
      rw [hrest] at hsplit
      constructor
      · intro h
        rw [Bool.and_eq_true, beq_iff_eq] at h
        obtain ⟨rfl, hall⟩ := h
        rw [List.all_eq_true] at hall
        constructor
        · intro x hx
          rw [← hsplit] at hx
          rcases List.mem_append.mp hx with hx | hx
          · exact Or.inl (htake x hx)
          · rcases List.mem_cons.mp hx with rfl | hx
            · exact Or.inr rfl
            · exact Or.inl (hall x hx)
        · rw [← hsplit, List.count_append, List.count_cons]
          have h1 : (s.data.takeWhile Char.isDigit).count '.' = 0 := by
            rw [List.count_eq_zero]
            intro hmem
            have := htake _ hmem
            simp at this
          have h2 : r.count '.' = 0 := by
            rw [List.count_eq_zero]
            intro hmem
            have := hall _ hmem
            simp at this
          simp [h1, h2]
      · rintro ⟨hall, hcount⟩
        have hcdot : c = '.' := by
          have := hall c (by rw [← hsplit]; exact List.mem_append_right _ (List.mem_cons_self _ _))
          rcases this with hdig | hdot
          · rw [hdig] at hc; cases hc
          · exact hdot
        subst hcdot
        rw [Bool.and_eq_true, beq_iff_eq]
        refine ⟨rfl, ?_⟩
        rw [List.all_eq_true]
        intro x hx
        have hxmem : x ∈ s.data := by
          rw [← hsplit]
          exact List.mem_append_right _ (List.mem_cons_of_mem _ hx)
        rcases hall x hxmem with hdig | hdot
        · exact hdig
        · exfalso
          subst hdot
          rw [← hsplit, List.count_append, List.count_cons_self] at hcount
          have : 1 ≤ r.count '.' := List.one_le_count_iff.mpr hx
          omega

/-! ## Preservation and isolation lemmas for the raw-activity path -/

theorem processTransaction_wellKeyed {cfgAddr : String} {now : Int}
    {tx : RawActivity.TxItem} {s s2 : TransferStore}
    (h : RawActivity.processTransaction cfgAddr now tx s = .ok s2)
    (hw : WellKeyed s) : WellKeyed s2 := by
  unfold RawActivity.processTransaction at h
  dsimp only at h
  repeat' split at h
  all_goals try (cases h)
  all_goals first
    | exact hw
    | exact wellKeyed_mapSet hw _ _ rfl

theorem processItems_wellKeyed {cfgAddr : String} {now : Int}
    {items : List RawActivity.TxItem} {s : TransferStore}
    (hw : WellKeyed s) : WellKeyed (RawActivity.processItems cfgAddr now s items) := by
  induction items generalizing s with
  | nil => exact hw
  | cons tx rest ih =>
      unfold RawActivity.processItems
      cases h : RawActivity.processTransaction cfgAddr now tx s with
      | ok st => exact ih (processTransaction_wellKeyed h hw)
      | error e => exact ih hw

theorem processItems_skip_error {cfgAddr : String} {now : Int}
    {tx : RawActivity.TxItem} {s : TransferStore} {e : RawActivity.JsError}
    (h : RawActivity.processTransaction cfgAddr now tx s = .error e)
    (rest : List RawActivity.TxItem) :
    RawActivity.processItems cfgAddr now s (tx :: rest) =
    RawActivity.processItems cfgAddr now s rest := by
  conv_lhs => unfold RawActivity.processItems
  rw [h]

theorem processItems_cons_ok {cfgAddr : String} {now : Int}
    {tx : RawActivity.TxItem} {s st : TransferStore}
    (h : RawActivity.processTransaction cfgAddr now tx s = .ok st)
    (rest : List RawActivity.TxItem) :
    RawActivity.processItems cfgAddr now s (tx :: rest) =
    RawActivity.processItems cfgAddr now st rest := by
  conv_lhs => unfold RawActivity.processItems
  rw [h]

theorem processItems_nil (cfgAddr : String) (now : Int) (s : TransferStore) :
    RawActivity.processItems cfgAddr now s [] = s := rfl

theorem wellKeyed_nil : WellKeyed [] := by
  intro k r h
  simp [mapGet] at h

theorem hmacHex_beq_empty_eq_false (key msg : String) :
    (hmacSha256Hex key msg == "") = false := by
  rw [beq_eq_false_iff_ne]
  intro he
  have hl := length_hmacSha256Hex key msg
  rw [he] at hl
  exact absurd hl (by decide)

theorem findMonitoredIndex_spec (cfgAddr : String) (l : List String) (i : Nat)
    (h : RawActivity.findMonitoredIndex cfgAddr l = some i) :
    i < l.length ∧ RawActivity.isMonitoredAddress cfgAddr (l.getD i "") = true := by
  induction l generalizing i with
  | nil => simp [RawActivity.findMonitoredIndex] at h
  | cons a rest ih =>
      unfold RawActivity.findMonitoredIndex at h
      by_cases ha : RawActivity.isMonitoredAddress cfgAddr a
      · rw [if_pos ha] at h
        cases h
        exact ⟨Nat.succ_pos _, ha⟩
      · rw [if_neg ha] at h
        cases hrec : RawActivity.findMonitoredIndex cfgAddr rest with
        | none => rw [hrec] at h; cases h
        | some j =>
            rw [hrec] at h
            injection h with h
            subst h
            obtain ⟨hj, hm⟩ := ih j hrec
            exact ⟨Nat.succ_lt_succ hj, hm⟩

theorem legacyHandleWebhook_wellKeyed {pd : String → Option Int} {cfgT cfgA : String}
    {payload : JsVal} {s s2 : TransferStore}
    (h : Legacy.handleWebhook pd cfgT cfgA payload s = .ok s2)
    (hw : WellKeyed s) : WellKeyed s2 := by
  unfold Legacy.handleWebhook at h
  dsimp only at h
  repeat' split at h
  all_goals try (cases h)
  all_goals first
    | exact hw
    | exact wellKeyed_mapSet hw _ _ rfl




/-! ## Claim theorems -/

set_option maxRecDepth 100000 in
/-- Sanity anchor: the implemented HMAC-SHA256 hex digest matches the
published test vector for key `"key"` and the quick-brown-fox message. -/
theorem hmacSha256Hex_test_vector :
    hmacSha256Hex "key" "The quick brown fox jumps over the lazy dog" =
    "f7bc83f430538424b13298e6aa6fb143ef4d59a14946175997479dbc2d1a3cd8" := by decide

/-- C1: `verifyAlchemySignature` returns true exactly when the claimed
signature equals the lowercase hexadecimal HMAC-SHA256 digest of the raw body
under the signing key; in particular the genuine digest verifies, the digest
is 64 lowercase hexadecimal characters, any differing signature is rejected,
and any body whose digest differs is rejected. -/
theorem C1_verify_iff_hmac_hex (rawBody signature signingKey : String) :
    (verifyAlchemySignature rawBody signature signingKey = true ↔
      signature = hmacSha256Hex signingKey rawBody) ∧
    verifyAlchemySignature rawBody (hmacSha256Hex signingKey rawBody) signingKey = true ∧
    ((hmacSha256Hex signingKey rawBody).length = 64 ∧
      ∀ c ∈ (hmacSha256Hex signingKey rawBody).data, c ∈ hexChars) ∧
    (∀ s2, s2 ≠ hmacSha256Hex signingKey rawBody →
      verifyAlchemySignature rawBody s2 signingKey = false) ∧
    (∀ b2, hmacSha256Hex signingKey b2 ≠ hmacSha256Hex signingKey rawBody →
      verifyAlchemySignature b2 (hmacSha256Hex signingKey rawBody) signingKey = false) := by
  refine ⟨?_, verify_roundtrip _ _, ⟨length_hmacSha256Hex _ _, ?_⟩, ?_, ?_⟩
  · unfold verifyAlchemySignature
    exact beq_iff_eq
  · intro c hc
    exact mem_hexChars_of_mem_bytesToHex _ _ hc
  · intro s2 h2
    unfold verifyAlchemySignature
    exact beq_eq_false_iff_ne.mpr h2
  · intro b2 h2
    unfold verifyAlchemySignature
    exact beq_eq_false_iff_ne.mpr (Ne.symm h2)

set_option maxRecDepth 100000 in
/-- Witness for C1 at concrete inputs, including a concrete single-bit body
mutation (`"abb"` flips the lowest bit of the last byte of `"abc"`). -/
theorem C1_witness :
    verifyAlchemySignature "abc" (hmacSha256Hex "key" "abc") "key" = true ∧
    verifyAlchemySignature "abc" "deadbeef" "key" = false ∧
    verifyAlchemySignature "abb" (hmacSha256Hex "key" "abc") "key" = false := by
  have h := C1_verify_iff_hmac_hex "abc" "deadbeef" "key"
  refine ⟨h.2.1, ?_, ?_⟩
  · exact h.2.2.2.1 "deadbeef" (hmacSha256Hex_ne_of_length _ _ _ (by decide))
  · exact h.2.2.2.2 "abb" (by decide)

/-- C9: the try/catch-wrapped verification never propagates an exception: when
the inner digest computation throws, the caught result is `false`; when it
succeeds, the result is the plain comparison; in particular an absent signing
key yields `false`. -/
theorem C9_verify_never_throws (rawBody signature : String) (signingKey : Option String) :
    (∀ e, hmacDigestE signingKey rawBody = .error e →
      verifyAlchemySignatureSafe rawBody signature signingKey = false) ∧
    (∀ d, hmacDigestE signingKey rawBody = .ok d →
      verifyAlchemySignatureSafe rawBody signature signingKey = (signature == d)) ∧
    verifyAlchemySignatureSafe rawBody signature none = false := by
  refine ⟨?_, ?_, rfl⟩
  · intro e he
    unfold verifyAlchemySignatureSafe
    rw [he]
  · intro d hd
    unfold verifyAlchemySignatureSafe
    rw [hd]

/-- Witness for C9: an absent signing key makes the digest computation throw
and the caught verification return false. -/
theorem C9_witness :
    verifyAlchemySignatureSafe "body" "sig" none = false ∧
    hmacDigestE none "body" = .error .invalidKey :=
  ⟨(C9_verify_never_throws "body" "sig" none).1 .invalidKey rfl, rfl⟩

/-- C4: upserting two records with the same hash leaves exactly the second one
(wholesale replacement, no merge), and upserting the same record twice equals
upserting it once. -/
theorem C4_upsert_last_write_wins (store : TransferStore) (r1 r2 : TokenTransfer)
    (hh : r1.transactionHash = r2.transactionHash) (_hne : r1 ≠ r2) :
    getTransferByHash
      (mapSet (mapSet store r1.transactionHash r1) r2.transactionHash r2)
      r2.transactionHash = some r2 ∧
    mapSet (mapSet store r1.transactionHash r1) r2.transactionHash r2 =
      mapSet store r2.transactionHash r2 ∧
    (∀ r : TokenTransfer,
      mapSet (mapSet store r.transactionHash r) r.transactionHash r =
      mapSet store r.transactionHash r) := by
  refine ⟨?_, ?_, fun r => mapSet_mapSet_same _ _ _ _⟩
  · unfold getTransferByHash
    exact mapGet_mapSet_self _ _ _
  · rw [hh]
    exact mapSet_mapSet_same _ _ _ _

/-- Witness for C4 with two concrete distinct records sharing hash `"h1"`. -/
theorem C4_witness :
    rec1C4.transactionHash = rec2C4.transactionHash ∧ rec1C4 ≠ rec2C4 ∧
    getTransferByHash
      (mapSet (mapSet [] rec1C4.transactionHash rec1C4) rec2C4.transactionHash rec2C4)
      rec2C4.transactionHash = some rec2C4 := by
  have h := C4_upsert_last_write_wins [] rec1C4 rec2C4 rfl (by decide)
  exact ⟨rfl, by decide, h.1⟩

/-- C5: a missing, non-string or cryptographically failing signature header
terminates the request as unauthorized with the store untouched, and the
outcome does not depend on the parsed body (the parser/extractor stage is
never reached). -/
theorem C5_unauthorized_before_parsing (pd : String → Option Int)
    (key : Option String) (cfgT cfgA : String) (store : TransferStore) :
    (∀ (raw : Option String) (body : JsVal),
      webhookPipeline pd key cfgT cfgA ⟨none, raw, body⟩ store =
        (.unauthorizedMissing, store)) ∧
    (∀ (ss : List String) (raw : Option String) (body : JsVal),
      webhookPipeline pd key cfgT cfgA ⟨some (.strs ss), raw, body⟩ store =
        (.unauthorizedMissing, store)) ∧
    (∀ (s k : String) (raw : String) (body : JsVal), key = some k →
      verifyAlchemySignature raw s k = false →
      ((webhookPipeline pd key cfgT cfgA ⟨some (.str s), some raw, body⟩ store).1.isUnauthorized
          = true ∧
       (webhookPipeline pd key cfgT cfgA ⟨some (.str s), some raw, body⟩ store).2 = store ∧
       ∀ body2 : JsVal,
         webhookPipeline pd key cfgT cfgA ⟨some (.str s), some raw, body2⟩ store =
         webhookPipeline pd key cfgT cfgA ⟨some (.str s), some raw, body⟩ store)) := by
  refine ⟨fun raw body => rfl, fun ss raw body => rfl, ?_⟩
  intro s k raw body hkey hver
  subst hkey
  have hpipe : ∀ b : JsVal,
      webhookPipeline pd (some k) cfgT cfgA ⟨some (.str s), some raw, b⟩ store =
      if s == "" then (.unauthorizedMissing, store) else (.unauthorizedInvalid, store) := by
    intro b
    unfold webhookPipeline
    by_cases hs : (s == "") = true
    · simp [hs]
    · rw [Bool.not_eq_true] at hs
      simp [hs, hver]
  refine ⟨?_, ?_, fun body2 => by rw [hpipe, hpipe]⟩
  · rw [hpipe]
    split <;> rfl
  · rw [hpipe]
    split <;> rfl

/-- Witness for C5: a request with no signature header is rejected, and a
request with the 2-character signature `"zz"` (which cannot equal a 64-digit
digest) is rejected as unauthorized with the store unchanged. -/
theorem C5_witness :
    webhookPipeline parseDateFix (some "key") usdcMint monitoredAddr
      ⟨none, some "RAWBODY", scenarioAPayload⟩ [] = (.unauthorizedMissing, []) ∧
    (webhookPipeline parseDateFix (some "key") usdcMint monitoredAddr
      ⟨some (.str "zz"), some "RAWBODY", scenarioAPayload⟩ []).1.isUnauthorized = true := by
  have h := C5_unauthorized_before_parsing parseDateFix (some "key") usdcMint monitoredAddr []
  refine ⟨h.1 (some "RAWBODY") scenarioAPayload, ?_⟩
  exact (h.2.2 "zz" "key" "RAWBODY" scenarioAPayload rfl
    (verify_false_of_length_ne _ _ _ (by decide))).1

/-- C2: raw-activity extraction.  With the item's first detail, first message
and first meta present, (a) a monitored address absent from the account keys
produces no record; (b) with the address found at index `i` and both balances
present, a non-positive delta produces no record, and a positive delta stores
exactly one record with the delta as amount, the `"SOL"` sentinel, the account
keyed by the first account index of the first instruction as sender, the
account-keys entry at `i` (the monitored address, case-insensitively) as
recipient, and the item's signature as hash. -/
theorem C2_raw_extraction (cfgAddr : String) (now : Int) (tx : RawActivity.TxItem)
    (store : TransferStore) (detail : RawActivity.TxDetail) (msg : RawActivity.TxMessage)
    (meta : RawActivity.TxMeta)
    (hd : tx.transaction.head? = some detail)
    (hm : detail.message.head? = some msg)
    (hmeta : tx.meta.head? = some meta) :
    (RawActivity.findMonitoredIndex cfgAddr msg.account_keys = none →
       RawActivity.processTransaction cfgAddr now tx store = .ok store) ∧
    (∀ i p q, RawActivity.findMonitoredIndex cfgAddr msg.account_keys = some i →
       meta.pre_balances.get? i = some p → meta.post_balances.get? i = some q →
       (Rat.divInt (q - p) RawActivity.LAMPORTS_PER_SOL =
          ((q - p : Int) : Rat) / ((RawActivity.LAMPORTS_PER_SOL : Int) : Rat)) ∧
       (Rat.divInt (q - p) RawActivity.LAMPORTS_PER_SOL ≤ 0 →
          RawActivity.processTransaction cfgAddr now tx store = .ok store) ∧
       (0 < Rat.divInt (q - p) RawActivity.LAMPORTS_PER_SOL →
          ∀ ins0 rest a0 arest sender,
            msg.instructions = ins0 :: rest → ins0.accounts = a0 :: arest →
            msg.account_keys.get? a0 = some sender →
            (RawActivity.processTransaction cfgAddr now tx store =
              .ok (mapSet store tx.signature
                { amount := Rat.divInt (q - p) RawActivity.LAMPORTS_PER_SOL,
                  tokenAddress := "SOL", fromAddr := some sender,
                  toAddr := msg.account_keys.getD i "", timestamp := now,
                  transactionHash := tx.signature }) ∧
             RawActivity.isMonitoredAddress cfgAddr (msg.account_keys.getD i "") = true))) := by
  constructor
  · intro hfind
    unfold RawActivity.processTransaction
    simp only [hd, hm, hmeta, hfind]
  · intro i p q hfind hp hq
    refine ⟨Rat.divInt_eq_div _ _, ?_, ?_⟩
    · intro hle
      unfold RawActivity.processTransaction
      simp only [hd, hm, hmeta, hfind, hp, hq]
      rw [if_neg (not_lt.mpr hle)]
    · intro hpos ins0 rest a0 arest sender hins hacc hsender
      refine ⟨?_, (findMonitoredIndex_spec cfgAddr msg.account_keys i hfind).2⟩
      unfold RawActivity.processTransaction
      simp only [hd, hm, hmeta, hfind, hp, hq]
      rw [if_pos hpos]
      simp only [hins, List.head?, hacc, Option.bind, hsender]

/-- Witness for C2: the valid fixture item yields exactly the expected stored
record, and the monitored address matches its account-keys entry. -/
theorem C2_witness :
    RawActivity.processTransaction monitoredAddr 99 txValid [] = .ok [("sig2", recValid)] ∧
    RawActivity.isMonitoredAddress monitoredAddr monitoredAddr = true := by
  have h := C2_raw_extraction monitoredAddr 99 txValid [] _ _ _ rfl rfl rfl
  have h2 := ((h.2 1 1000000000 2000000000 rfl rfl rfl).2.2 (by decide)
    { accounts := [0, 1] } [] 0 [1] senderAddr rfl rfl rfl)
  exact ⟨h2.1, h2.2⟩

/-- C3: per-item isolation.  For a notification that validates, whose list is
a malformed item followed by a valid one, the malformed item's failure is
swallowed: the valid item is still processed, its resulting store is returned,
and the notification is accepted. -/
theorem C3_per_item_isolation (cfgAddr : String) (now : Int)
    (payload : RawActivity.RawPayload) (store : TransferStore)
    (t1 t2 : RawActivity.TxItem) (e : RawActivity.JsError) (st2 : TransferStore)
    (ev : RawActivity.RawEvent)
    (hev : payload.event = some ev) (htx : ev.transaction = some [t1, t2])
    (hv : RawActivity.validatePayload payload = .ok ())
    (h1 : RawActivity.processTransaction cfgAddr now t1 store = .error e)
    (h2 : RawActivity.processTransaction cfgAddr now t2 store = .ok st2) :
    (∀ (t : RawActivity.TxItem) (rest : List RawActivity.TxItem) (s : TransferStore)
        (e2 : RawActivity.JsError),
      RawActivity.processTransaction cfgAddr now t s = .error e2 →
      RawActivity.processItems cfgAddr now s (t :: rest) =
        RawActivity.processItems cfgAddr now s rest) ∧
    RawActivity.handleWebhook cfgAddr now payload store = .ok st2 := by
  refine ⟨fun t rest s e2 he => processItems_skip_error he rest, ?_⟩
  unfold RawActivity.handleWebhook
  rw [hv]
  dsimp only
  rw [hev]
  dsimp only [Option.bind]
  rw [htx]
  dsimp only [Option.getD]
  rw [processItems_skip_error h1, processItems_cons_ok h2, processItems_nil]

/-- Witness for C3 at the scenario-F fixture: the two-item batch with a
malformed first item is accepted and stores exactly the valid item's record. -/
theorem C3_witness :
    RawActivity.handleWebhook monitoredAddr 99 payloadScenarioF [] =
      .ok [("sig2", recValid)] := by
  exact (C3_per_item_isolation monitoredAddr 99 payloadScenarioF []
    txEmptyInstructions txValid .typeError [("sig2", recValid)] evScenarioF
    rfl rfl rfl rfl rfl).2

/-- C6 (amended): for an item with a positive delta for the monitored address,
an empty instruction list makes extraction throw (a per-item processing error,
skipped without aborting the rest of the batch); but an empty account list in
the first instruction does NOT error — a record is stored whose sender is
undefined. -/
theorem C6_amended_sender_inference (cfgAddr : String) (now : Int)
    (tx : RawActivity.TxItem) (store : TransferStore) (detail : RawActivity.TxDetail)
    (msg : RawActivity.TxMessage) (meta : RawActivity.TxMeta) (i : Nat) (p q : Int)
    (hd : tx.transaction.head? = some detail)
    (hm : detail.message.head? = some msg)
    (hmeta : tx.meta.head? = some meta)
    (hfind : RawActivity.findMonitoredIndex cfgAddr msg.account_keys = some i)
    (hp : meta.pre_balances.get? i = some p)
    (hq : meta.post_balances.get? i = some q)
    (hpos : 0 < Rat.divInt (q - p) RawActivity.LAMPORTS_PER_SOL) :
    (msg.instructions = [] →
       RawActivity.processTransaction cfgAddr now tx store = .error .typeError ∧
       ∀ rest, RawActivity.processItems cfgAddr now store (tx :: rest) =
               RawActivity.processItems cfgAddr now store rest) ∧
    (∀ ins0 rest, msg.instructions = ins0 :: rest → ins0.accounts = [] →
       RawActivity.processTransaction cfgAddr now tx store =
         .ok (mapSet store tx.signature
           { amount := Rat.divInt (q - p) RawActivity.LAMPORTS_PER_SOL,
             tokenAddress := "SOL", fromAddr := none,
             toAddr := msg.account_keys.getD i "", timestamp := now,
             transactionHash := tx.signature })) := by
  constructor
  · intro hins
    have herr : RawActivity.processTransaction cfgAddr now tx store = .error .typeError := by
      unfold RawActivity.processTransaction
      simp only [hd, hm, hmeta, hfind, hp, hq]
      rw [if_pos hpos]
      simp only [hins, List.head?]
    exact ⟨herr, fun rest => processItems_skip_error herr rest⟩
  · intro ins0 rest hins hacc
    unfold RawActivity.processTransaction
    simp only [hd, hm, hmeta, hfind, hp, hq]
    rw [if_pos hpos]
    simp only [hins, List.head?, hacc, Option.bind]

/-- Counterexample for C6 as stated: the fixture item has a positive delta and
an empty account list in its first instruction, yet extraction does not fail —
it stores a record (with an undefined sender) under the item's signature. -/
theorem C6_counterexample :
    RawActivity.processTransaction monitoredAddr 99 txEmptyAccounts [] =
      .ok [("sig3", recNoSender)] := rfl

/-- Witness for the amended C6, applying it to both fixture items: the
empty-instruction item errors and is skipped; the empty-account-list item
stores the no-sender record. -/
theorem C6_witness :
    RawActivity.processTransaction monitoredAddr 99 txEmptyInstructions [] =
      .error .typeError ∧
    RawActivity.processTransaction monitoredAddr 99 txEmptyAccounts [] =
      .ok (mapSet [] "sig3" recNoSender) := by
  have h1 := C6_amended_sender_inference monitoredAddr 99 txEmptyInstructions []
    _ _ _ 1 1000000000 1500000000 rfl rfl rfl rfl rfl rfl (by decide)
  have h2 := C6_amended_sender_inference monitoredAddr 99 txEmptyAccounts []
    _ _ _ 1 1000000000 1500000000 rfl rfl rfl rfl rfl rfl (by decide)
  exact ⟨(h1.1 rfl).1, h2.2 { accounts := [] } [] rfl rfl⟩

/-- C7 (amended): in the legacy path, a per-item processing error (the amount
string passing format validation but parsing to `NaN`) is not isolated — the
service re-throws it, aborting the notification, and the controller reports an
internal error to the caller with the store unchanged. -/
theorem C7_amended_processing_error_aborts (pd : String → Option Int)
    (cfgT cfgA : String) (payload : JsVal) (store : TransferStore)
    (hv : Legacy.validatePayload pd payload = .ok ())
    (htok : lowerAscii (Legacy.eventField payload "tokenAddress") = lowerAscii cfgT)
    (hto : lowerAscii (Legacy.eventField payload "to") = lowerAscii cfgA)
    (hamt : parseFloatJs (Legacy.eventField payload "amount") = none) :
    Legacy.handleWebhook pd cfgT cfgA payload store = .error .parseAmount ∧
    (∀ k raw, webhookPipeline pd (some k) cfgT cfgA
        ⟨some (.str (hmacSha256Hex k raw)), some raw, payload⟩ store =
        (.internalError, store)) := by
  have hserv : Legacy.handleWebhook pd cfgT cfgA payload store = .error .parseAmount := by
    unfold Legacy.handleWebhook
    simp only [hv, htok, hto, hamt, bne_self_eq_false, Bool.false_eq_true, if_false]
  refine ⟨hserv, ?_⟩
  intro k raw
  unfold webhookPipeline
  simp only [hmacHex_beq_empty_eq_false, Bool.false_eq_true, if_false,
    verify_roundtrip, if_true, hserv]

/-- Counterexample for C7 as stated: a concrete legacy notification whose
amount `"."` passes format validation, yet whose processing error aborts the
whole notification — the service throws and the caller receives an internal
error, not a success. -/
theorem C7_counterexample :
    Legacy.validatePayload parseDateFix dotAmountPayload = .ok () ∧
    Legacy.handleWebhook parseDateFix usdcMint monitoredAddr dotAmountPayload [] =
      .error .parseAmount ∧
    webhookPipeline parseDateFix (some "key") usdcMint monitoredAddr
      ⟨some (.str (hmacSha256Hex "key" "RAWBODY")), some "RAWBODY", dotAmountPayload⟩ [] =
      (.internalError, []) := by
  have hserv : Legacy.handleWebhook parseDateFix usdcMint monitoredAddr dotAmountPayload [] =
      .error .parseAmount := rfl
  refine ⟨rfl, hserv, ?_⟩
  unfold webhookPipeline
  simp only [hmacHex_beq_empty_eq_false, Bool.false_eq_true, if_false,
    verify_roundtrip, if_true, hserv]

/-- Witness for the amended C7 at the concrete dot-amount fixture. -/
theorem C7_witness :
    Legacy.handleWebhook parseDateFix usdcMint monitoredAddr dotAmountPayload [] =
      .error .parseAmount ∧
    webhookPipeline parseDateFix (some "key") usdcMint monitoredAddr
      ⟨some (.str (hmacSha256Hex "key" "B")), some "B", dotAmountPayload⟩ [] =
      (.internalError, []) := by
  have h := C7_amended_processing_error_aborts parseDateFix usdcMint monitoredAddr
    dotAmountPayload [] rfl rfl rfl rfl
  exact ⟨h.1, h.2 "key" "B"⟩

/-- C8: the amount format test accepts exactly the plain decimal numerals
(digits with at most one decimal point, both runs possibly empty, as the
source regex `/^\d*\.?\d*$/` does), and on a payload passing every earlier
check, validation succeeds exactly on that language and otherwise fails with
the distinct invalid-amount-format error. -/
theorem C8_amount_format_validation (pd : String → Option Int)
    (tok toA fromA amount hash ts : String) (t0 : Int)
    (htok : base58Ok tok = true) (hto : base58Ok toA = true)
    (hfrom : base58Ok fromA = true) (hts : pd ts = some t0) :
    (amountFormatOk amount = true ↔ IsPlainDecimal amount) ∧
    (Legacy.validatePayload pd (mkLegacyPayload tok toA fromA amount hash ts) = .ok () ↔
      IsPlainDecimal amount) ∧
    (¬ IsPlainDecimal amount →
      Legacy.validatePayload pd (mkLegacyPayload tok toA fromA amount hash ts) =
        .error .invalidAmountFormat) := by
  have hval : Legacy.validatePayload pd (mkLegacyPayload tok toA fromA amount hash ts) =
      if amountFormatOk amount then .ok () else .error .invalidAmountFormat := by
    unfold Legacy.validatePayload mkLegacyPayload
    simp [getField, hasField, isObjectLike, Legacy.requiredFields, Legacy.requireString,
      htok, hto, hfrom, hts]
    cases hfmt : amountFormatOk amount <;> simp [hfmt]
  refine ⟨amountFormatOk_iff amount, ?_, ?_⟩
  · rw [hval]
    by_cases hp : amountFormatOk amount = true
    · rw [if_pos hp]
      simp [(amountFormatOk_iff amount).mp hp]
    · rw [if_neg hp]
      constructor
      · intro hcon
        simp at hcon
      · intro hplain
        exact absurd ((amountFormatOk_iff amount).mpr hplain) hp
  · intro hnp
    rw [hval, if_neg (fun hp => hnp ((amountFormatOk_iff amount).mp hp))]

/-- Witness for C8: the amount `"12.5"` validates, the amount `"1x"` fails
with the invalid-amount-format error. -/
theorem C8_witness :
    Legacy.validatePayload parseDateFix
      (mkLegacyPayload usdcMint monitoredAddr senderAddr "12.5" "abc123" "2024-01-01") =
      .ok () ∧
    Legacy.validatePayload parseDateFix
      (mkLegacyPayload usdcMint monitoredAddr senderAddr "1x" "abc123" "2024-01-01") =
      .error .invalidAmountFormat := by
  have h1 := C8_amount_format_validation parseDateFix usdcMint monitoredAddr senderAddr
    "12.5" "abc123" "2024-01-01" 1704067200000 (by decide) (by decide) (by decide) rfl
  have h2 := C8_amount_format_validation parseDateFix usdcMint monitoredAddr senderAddr
    "1x" "abc123" "2024-01-01" 1704067200000 (by decide) (by decide) (by decide) rfl
  exact ⟨h1.2.1.mpr (by decide), h2.2.2 (by decide)⟩

/-- C10: key-record coherence.  From a well-keyed store, both ingestion paths
(legacy and raw-activity) produce a well-keyed store, and every successful
lookup returns a record whose transaction hash is the queried key. -/
theorem C10_key_record_coherence (store : TransferStore) (hw : WellKeyed store) :
    (∀ (pd : String → Option Int) (cfgT cfgA : String) (payload : JsVal)
        (st2 : TransferStore),
      Legacy.handleWebhook pd cfgT cfgA payload store = .ok st2 → WellKeyed st2) ∧
    (∀ (cfgAddr : String) (now : Int) (payload : RawActivity.RawPayload)
        (st2 : TransferStore),
      RawActivity.handleWebhook cfgAddr now payload store = .ok st2 → WellKeyed st2) ∧
    (∀ k r, getTransferByHash store k = some r → r.transactionHash = k) := by
  refine ⟨?_, ?_, fun k r h => hw k r h⟩
  · intro pd cfgT cfgA payload st2 h
    exact legacyHandleWebhook_wellKeyed h hw
  · intro cfgAddr now payload st2 h
    unfold RawActivity.handleWebhook at h
    dsimp only at h
    split at h
    · cases h
    · injection h with h
      subst h
      exact processItems_wellKeyed hw

/-- Witness for C10: ingesting the scenario-A notification into the empty
store yields a well-keyed store in which the record is found under its own
hash. -/
theorem C10_witness :
    Legacy.handleWebhook parseDateFix usdcMint monitoredAddr scenarioAPayload [] =
      .ok storeAfterA ∧
    WellKeyed storeAfterA ∧
    (getTransferByHash storeAfterA "abc123").isSome = true := by
  have hrun : Legacy.handleWebhook parseDateFix usdcMint monitoredAddr scenarioAPayload [] =
      .ok storeAfterA := rfl
  exact ⟨hrun,
    (C10_key_record_coherence [] wellKeyed_nil).1 parseDateFix usdcMint monitoredAddr
      scenarioAPayload storeAfterA hrun,
    rfl⟩
